import Mathlib

/-!
Shallow embedding of `src/pools.py` ("pools -- Generators with reuse").

Conventions of the embedding:

* Python exceptions are modelled by `PyErr`; an operation that can raise
  returns `Except PyErr α` together with the post-state (Python mutates the
  object even when an exception then propagates, so the post-state is
  returned in both cases).
* `send(None)` (a request) is modelled by passing `Option.none`; a returned
  value is `some v`.
* Python `set` objects are modelled as duplicate-free lists in insertion
  order; `set.pop()` (which removes an arbitrary element) is determinised
  to removing the head.  `set.add` appends when the element is absent.
* The condition variables only matter through the number of waiters they
  signal, so operations of the population pools additionally return that
  count.  Two CPython facts are reflected faithfully:
  `threading.Condition.__enter__` returns the result of acquiring the
  underlying lock (the boolean `True`), so `with self._con as c:` binds
  `c = True` and every `c.wait()` / `c.notify(...)` raises AttributeError;
  and `collections.deque` has no method `push`, so `self._rvq.push(value)`
  raises AttributeError.
* In `SetBasedAsyncPopPool.asend` the call `self._ac.wait()` is not
  awaited, so a requester that finds the set empty spins forever in the
  `while` loop; this non-termination is modelled by the outcome
  `AResult.hang`.
-/

namespace Pools

/-- Python exceptions raised by the code of `pools.py`. -/
inductive PyErr where
  | stopIteration
  | stopAsyncIteration
  | attributeError
  deriving DecidableEq, Repr

instance {ε α : Type} [DecidableEq ε] [DecidableEq α] :
    DecidableEq (Except ε α) := fun x y =>
  match x, y with
  | .ok a, .ok b => decidable_of_iff (a = b) (by simp)
  | .ok _, .error _ => isFalse (by simp)
  | .error _, .ok _ => isFalse (by simp)
  | .error e, .error f => decidable_of_iff (e = f) (by simp)

/-- Values that can be passed to `SimpleIntPool.send`: `None`, an `int`,
or some value of a different type (represented by a string). -/
inductive PyVal where
  | noneV
  | int (n : Int)
  | str (s : String)
  deriving DecidableEq, Repr

/-! ### SimpleIntPool -/

/-- State of `SimpleIntPool`: `_src = itertools.count()` always has
`top + 1` as its next value, `_top` is the lowest int never yielded,
`_rvq` is the deque of returned values, `_stopped` the closed flag. -/
structure SimpleIntPool where
  top : Int
  rvq : List Int
  stopped : Bool
  deriving DecidableEq, Repr

/-- `SimpleIntPool.__init__`: `_top = next(count()) = 0`, empty queue. -/
def SimpleIntPool.mkFresh : SimpleIntPool :=
  { top := 0, rvq := [], stopped := false }

/-- `SimpleIntPool.send`.  A non-int argument takes the request branch
(the `try/except IndexError` around `popleft` is only entered when
`len(self._rvq) > 0`, where `popleft` cannot fail).  An int in range and
not already queued reaches `self._rvq.push(value)`; `deque` has no
attribute `push`, so this raises AttributeError.  Any other int falls
through and the method returns `None`. -/
def SimpleIntPool.send (p : SimpleIntPool) (value : PyVal) :
    Except PyErr (Option Int) × SimpleIntPool :=
  if p.stopped then (.error .stopIteration, p)
  else
    match value with
    | .int v =>
        if 0 ≤ v ∧ v < p.top ∧ v ∉ p.rvq then
          (.error .attributeError, p)
        else
          (.ok Option.none, p)
    | _ =>
        match p.rvq with
        | x :: rest => (.ok (some x), { p with rvq := rest })
        | [] => (.ok (some p.top), { p with top := p.top + 1 })

/-- `SimpleIntPool.throw`: the inherited `throw` raises the passed
exception, which is caught; `_stopped` is set and StopIteration raised. -/
def SimpleIntPool.throw (p : SimpleIntPool) :
    Except PyErr (Option Int) × SimpleIntPool :=
  (.error .stopIteration, { p with stopped := true })

/-- Values yielded by `n` successive requests (`send(None)`), stopping at
the first request that does not hand out a value. -/
def SimpleIntPool.reqN : SimpleIntPool → Nat → List Int
  | _, 0 => []
  | p, n + 1 =>
    match p.send PyVal.noneV with
    | (.ok (some v), q) => v :: q.reqN n
    | (_, _) => []

/-! ### Set elements and the list model of Python sets -/

/-- An element of the Python set `_set` of the set-based pools.  The code
can put three shapes of object into it: a value of the element type
(`val`), the `args` *tuple* inserted whole by `populate`/`apopulate`
(`tup`), and the initial-values *set object* inserted whole by
`__init__`'s `{ivals}` (`setObj`). -/
inductive Elem (H : Type) where
  | val (v : H)
  | tup (xs : List H)
  | setObj (xs : List H)
  deriving DecidableEq, Repr

/-- `s.add(x)` on the list model of a Python set. -/
def sadd {α : Type} [DecidableEq α] (s : List α) (x : α) : List α :=
  if x ∈ s then s else s ++ [x]

/-- `s |= t` on the list model of a Python set. -/
def sunion {α : Type} [DecidableEq α] (s t : List α) : List α :=
  t.foldl sadd s

/-! ### SetBasedPopulationPool (synchronous) -/

/-- State of `SetBasedPopulationPool`: the backing set and the closed
flag (`_con` is a `threading.Condition`; it carries no data). -/
structure SetBasedPopulationPool (H : Type) where
  avail : List (Elem H)
  stopped : Bool
  deriving DecidableEq, Repr

/-- `SetBasedPopulationPool.__init__`: with no `ivals`, `_set = Set[H]()`
(an empty set); with `ivals`, `_set = {ivals}` — a singleton set whose
one element is the `ivals` set object itself. -/
def SetBasedPopulationPool.mkPool {H : Type} (ivals : Option (List H)) :
    SetBasedPopulationPool H :=
  match ivals with
  | Option.none => { avail := [], stopped := false }
  | some l => { avail := [Elem.setObj l], stopped := false }

/-- `SetBasedPopulationPool.populate`.  With no extra args, `val` is
added; otherwise `argset = {args}` is the singleton holding the `args`
tuple, `count = 1 + len(argset) = 2`, `val` is added and the tuple is
unioned in.  Then `with self._con as c: c.notify(count)` binds `c` to the
boolean returned by acquiring the lock, so `c.notify` raises
AttributeError and nobody is signalled (the third component is the number
of waiters actually signalled). -/
def SetBasedPopulationPool.populate {H : Type} [DecidableEq H]
    (p : SetBasedPopulationPool H) (val : H) (args : List H) :
    Except PyErr Unit × SetBasedPopulationPool H × Nat :=
  if p.stopped then (.error .stopIteration, p, 0)
  else
    let s1 :=
      if args.isEmpty then sadd p.avail (Elem.val val)
      else sunion (sadd p.avail (Elem.val val)) [Elem.tup args]
    (.error .attributeError, { p with avail := s1 }, 0)

/-- `SetBasedPopulationPool.send`.  Requests (`None`): under
`with self._con as c:`, an empty set leads to `c.wait()` on the boolean
`c = True`, raising AttributeError at once (the caller never suspends);
a non-empty set is popped.  Returns: a value already present is silently
dropped and `None` is returned; a new value is added and then
`c.notify()` on the boolean raises AttributeError. -/
def SetBasedPopulationPool.send {H : Type} [DecidableEq H]
    (p : SetBasedPopulationPool H) (value : Option (Elem H)) :
    Except PyErr (Option (Elem H)) × SetBasedPopulationPool H × Nat :=
  if p.stopped then (.error .stopIteration, p, 0)
  else
    match value with
    | Option.none =>
        match p.avail with
        | [] => (.error .attributeError, p, 0)
        | x :: rest => (.ok (some x), { p with avail := rest }, 0)
    | some v =>
        if v ∈ p.avail then (.ok Option.none, p, 0)
        else (.error .attributeError, { p with avail := p.avail ++ [v] }, 0)

/-- `SetBasedPopulationPool.throw`: the re-raised exception is caught and
`_stopped` set; then `with self._con as c: c.notify_all()` raises
AttributeError on the boolean `c`, so no waiter is signalled and the
AttributeError propagates instead of StopIteration. -/
def SetBasedPopulationPool.throw {H : Type}
    (p : SetBasedPopulationPool H) :
    Except PyErr (Option (Elem H)) × SetBasedPopulationPool H × Nat :=
  (.error .attributeError, { p with stopped := true }, 0)

/-- Values handed out by `n` successive requests on the synchronous
set-based pool, stopping at the first unsuccessful request. -/
def SetBasedPopulationPool.reqN {H : Type} [DecidableEq H] :
    SetBasedPopulationPool H → Nat → List (Elem H)
  | _, 0 => []
  | p, n + 1 =>
    match p.send Option.none with
    | (.ok (some v), q, _) => v :: q.reqN n
    | (_, _, _) => []

/-! ### SetBasedAsyncPopPool (asynchronous) -/

/-- Outcome of an async operation: a normal value, a raised exception, or
non-termination (the event loop never progresses). -/
inductive AResult (α : Type) where
  | ok (v : α)
  | err (e : PyErr)
  | hang
  deriving DecidableEq, Repr

/-- State of `SetBasedAsyncPopPool` (the lazily created
`asyncio.Condition` carries no data). -/
structure SetBasedAsyncPopPool (H : Type) where
  avail : List (Elem H)
  stopped : Bool
  deriving DecidableEq, Repr

/-- `SetBasedAsyncPopPool.__init__`: same `{ivals}` shape as the
synchronous pool. -/
def SetBasedAsyncPopPool.mkPool {H : Type} (ivals : Option (List H)) :
    SetBasedAsyncPopPool H :=
  match ivals with
  | Option.none => { avail := [], stopped := false }
  | some l => { avail := [Elem.setObj l], stopped := false }

/-- `SetBasedAsyncPopPool.apopulate`.  With no extra args, `val` is added
and `count = 1`.  Otherwise `argset = {args}` holds the `args` tuple,
`argset.add(val)` makes it `{args-tuple, val}`, `count = len(argset) = 2`,
and the two elements are unioned into `_set`.  The `async with`/`notify`
here is well-formed, so `count` waiters are signalled. -/
def SetBasedAsyncPopPool.apopulate {H : Type} [DecidableEq H]
    (p : SetBasedAsyncPopPool H) (val : H) (args : List H) :
    Except PyErr Unit × SetBasedAsyncPopPool H × Nat :=
  if p.stopped then (.error .stopAsyncIteration, p, 0)
  else if args.isEmpty then
    (.ok (), { p with avail := sadd p.avail (Elem.val val) }, 1)
  else
    let argset := sadd [Elem.tup args] (Elem.val val)
    (.ok (), { p with avail := sunion p.avail argset }, argset.length)

/-- `SetBasedAsyncPopPool.asend`.  A request on an empty set enters
`while len(self._set) == 0: self._ac.wait()`; the `wait()` coroutine is
never awaited, so the loop spins forever without yielding: `hang`.
A request on a non-empty set pops.  A return adds an absent value and
signals one waiter, or silently ignores a present one; both return
`None`. -/
def SetBasedAsyncPopPool.asend {H : Type} [DecidableEq H]
    (p : SetBasedAsyncPopPool H) (value : Option (Elem H)) :
    AResult (Option (Elem H)) × SetBasedAsyncPopPool H × Nat :=
  if p.stopped then (.err .stopAsyncIteration, p, 0)
  else
    match value with
    | Option.none =>
        match p.avail with
        | [] => (.hang, p, 0)
        | x :: rest => (.ok (some x), { p with avail := rest }, 0)
    | some v =>
        if v ∈ p.avail then (.ok Option.none, p, 0)
        else (.ok Option.none, { p with avail := p.avail ++ [v] }, 1)

/-- `SetBasedAsyncPopPool.athrow`: the exception is caught, `_stopped`
set, all waiters signalled, StopAsyncIteration raised. -/
def SetBasedAsyncPopPool.athrow {H : Type}
    (p : SetBasedAsyncPopPool H) :
    AResult (Option (Elem H)) × SetBasedAsyncPopPool H :=
  (.err .stopAsyncIteration, { p with stopped := true })

/-- Values handed out by `n` successive requests on the asynchronous
set-based pool, stopping at the first unsuccessful request. -/
def SetBasedAsyncPopPool.reqN {H : Type} [DecidableEq H] :
    SetBasedAsyncPopPool H → Nat → List (Elem H)
  | _, 0 => []
  | p, n + 1 =>
    match p.asend Option.none with
    | (AResult.ok (some v), q, _) => v :: q.reqN n
    | (_, _, _) => []

/-! ### AsyncIteratorPool -/

/-- State of `AsyncIteratorPool`.  The upstream iterator `_base` is
modelled by the list of events it will produce: `some a` yields `a`,
`Option.none` raises some exception (exhaustion or failure).  `_yl` is
the deque of values on loan, `_rl` the deque of returned values. -/
structure AsyncIteratorPool (T : Type) where
  base : List (Option T)
  yl : List T
  rl : List T
  stopped : Bool
  deriving DecidableEq, Repr

/-- `AsyncIteratorPool.__init__`. -/
def AsyncIteratorPool.mkPool {T : Type} (base : List (Option T)) :
    AsyncIteratorPool T :=
  { base := base, yl := [], rl := [], stopped := false }

/-- `AsyncIteratorPool.asend`.  On a request, a non-empty `_rl` is
served first; otherwise the next upstream value is pulled, appended to
`_yl` and returned, and any upstream exception (StopAsyncIteration on
exhaustion, or any error) is caught, the pool is closed and
StopAsyncIteration is raised in its place.  On a return, a value present
in `_yl` moves to `_rl` (`deque.remove` drops the first occurrence);
anything else is ignored; `None` is returned either way. -/
def AsyncIteratorPool.asend {T : Type} [DecidableEq T]
    (p : AsyncIteratorPool T) (value : Option T) :
    Except PyErr (Option T) × AsyncIteratorPool T :=
  if p.stopped then (.error .stopAsyncIteration, p)
  else
    match value with
    | Option.none =>
        match p.rl with
        | [] =>
            match p.base with
            | [] => (.error .stopAsyncIteration, { p with stopped := true })
            | Option.none :: rest =>
                (.error .stopAsyncIteration,
                  { p with base := rest, stopped := true })
            | some yv :: rest =>
                (.ok (some yv), { p with base := rest, yl := p.yl ++ [yv] })
        | x :: rest =>
            (.ok (some x), { p with rl := rest, yl := p.yl ++ [x] })
    | some v =>
        if v ∈ p.yl then
          (.ok Option.none, { p with yl := p.yl.erase v, rl := p.rl ++ [v] })
        else (.ok Option.none, p)

/-- `AsyncIteratorPool.athrow`: whatever the upstream or the inherited
`athrow` raises is caught, `_stopped` set, waiters signalled,
StopAsyncIteration raised. -/
def AsyncIteratorPool.athrow {T : Type} (p : AsyncIteratorPool T) :
    Except PyErr (Option T) × AsyncIteratorPool T :=
  (.error .stopAsyncIteration, { p with stopped := true })

/-- Values handed out by `n` successive requests on the wrapping pool,
stopping at the first unsuccessful request. -/
def AsyncIteratorPool.reqN {T : Type} [DecidableEq T] :
    AsyncIteratorPool T → Nat → List T
  | _, 0 => []
  | p, n + 1 =>
    match p.asend Option.none with
    | (.ok (some v), q) => v :: q.reqN n
    | (_, _) => []

/-! ### Invariants and request-run lemmas -/

/-- Invariant of `SimpleIntPool`: the returned-value queue has no
duplicates and holds only values in `[0, top)`.  It holds for the fresh
pool and is preserved by `send`. -/
def SimpleIntPool.Inv (p : SimpleIntPool) : Prop :=
  p.rvq.Nodup ∧ ∀ v ∈ p.rvq, 0 ≤ v ∧ v < p.top

theorem SimpleIntPool.mem_reqN_counting :
    ∀ (n : Nat) (p : SimpleIntPool), ∀ w ∈ p.reqN n,
      w ∈ p.rvq ∨ p.top ≤ w := by
  intro n
  induction n with
  | zero => intro p w hw; simp [SimpleIntPool.reqN] at hw
  | succ n ih =>
    intro p w hw
    by_cases hs : p.stopped
    · simp [SimpleIntPool.reqN, SimpleIntPool.send, hs] at hw
    · cases hq : p.rvq with
      | cons x rest =>
        simp [SimpleIntPool.reqN, SimpleIntPool.send, hs, hq] at hw
        rcases hw with hw | hw
        · subst hw; exact Or.inl (by simp [hq])
        · rcases ih _ w hw with h | h
          · exact Or.inl (by simp [hq, h])
          · exact Or.inr h
      | nil =>
        simp [SimpleIntPool.reqN, SimpleIntPool.send, hs, hq] at hw
        rcases hw with hw | hw
        · exact Or.inr (by simp [hw])
        · rcases ih _ w hw with h | h
          · simp at h
          · simp at h; exact Or.inr (by omega)

theorem SimpleIntPool.nodup_reqN_counting :
    ∀ (n : Nat) (p : SimpleIntPool), p.Inv → (p.reqN n).Nodup := by
  intro n
  induction n with
  | zero => intro p _; simp [SimpleIntPool.reqN]
  | succ n ih =>
    intro p hp
    by_cases hs : p.stopped
    · simp [SimpleIntPool.reqN, SimpleIntPool.send, hs]
    · cases hq : p.rvq with
      | cons x rest =>
        have hnd : (x :: rest).Nodup := hq ▸ hp.1
        have hbd := hp.2
        simp [SimpleIntPool.reqN, SimpleIntPool.send, hs, hq]
        refine ⟨?_, ih _ ⟨hnd.of_cons, fun v hv => hbd v (by simp [hq, hv])⟩⟩
        intro hx
        rcases SimpleIntPool.mem_reqN_counting n _ x hx with h | h
        · exact (List.nodup_cons.mp hnd).1 h
        · simp at h; have := (hbd x (by simp [hq])).2; omega
      | nil =>
        simp [SimpleIntPool.reqN, SimpleIntPool.send, hs, hq]
        refine ⟨?_, ih _ ⟨by simp, by simp⟩⟩
        intro hx
        rcases SimpleIntPool.mem_reqN_counting n _ p.top hx with h | h
        · simp at h
        · simp at h

theorem SetBasedPopulationPool.mem_reqN_setPool {H : Type} [DecidableEq H] :
    ∀ (n : Nat) (q : SetBasedPopulationPool H), ∀ w ∈ q.reqN n,
      w ∈ q.avail := by
  intro n
  induction n with
  | zero => intro q w hw; simp [SetBasedPopulationPool.reqN] at hw
  | succ n ih =>
    intro q w hw
    by_cases hs : q.stopped
    · simp [SetBasedPopulationPool.reqN, SetBasedPopulationPool.send, hs] at hw
    · cases hq : q.avail with
      | nil =>
        simp [SetBasedPopulationPool.reqN, SetBasedPopulationPool.send, hs,
          hq] at hw
      | cons x rest =>
        simp [SetBasedPopulationPool.reqN, SetBasedPopulationPool.send, hs,
          hq] at hw
        rcases hw with hw | hw
        · subst hw; simp [hq]
        · have := ih _ w hw; simp [hq, this]

theorem SetBasedPopulationPool.nodup_reqN_setPool {H : Type} [DecidableEq H] :
    ∀ (n : Nat) (q : SetBasedPopulationPool H), q.avail.Nodup →
      (q.reqN n).Nodup := by
  intro n
  induction n with
  | zero => intro q _; simp [SetBasedPopulationPool.reqN]
  | succ n ih =>
    intro q hnd
    by_cases hs : q.stopped
    · simp [SetBasedPopulationPool.reqN, SetBasedPopulationPool.send, hs]
    · cases hq : q.avail with
      | nil =>
        simp [SetBasedPopulationPool.reqN, SetBasedPopulationPool.send, hs, hq]
      | cons x rest =>
        have hnd' : (x :: rest).Nodup := hq ▸ hnd
        simp [SetBasedPopulationPool.reqN, SetBasedPopulationPool.send, hs, hq]
        refine ⟨?_, ih _ hnd'.of_cons⟩
        intro hx
        exact (List.nodup_cons.mp hnd').1
          (SetBasedPopulationPool.mem_reqN_setPool n _ x hx)

theorem SetBasedAsyncPopPool.mem_reqN_asyncSetPool {H : Type} [DecidableEq H] :
    ∀ (n : Nat) (q : SetBasedAsyncPopPool H), ∀ w ∈ q.reqN n,
      w ∈ q.avail := by
  intro n
  induction n with
  | zero => intro q w hw; simp [SetBasedAsyncPopPool.reqN] at hw
  | succ n ih =>
    intro q w hw
    by_cases hs : q.stopped
    · simp [SetBasedAsyncPopPool.reqN, SetBasedAsyncPopPool.asend, hs] at hw
    · cases hq : q.avail with
      | nil =>
        simp [SetBasedAsyncPopPool.reqN, SetBasedAsyncPopPool.asend, hs,
          hq] at hw
      | cons x rest =>
        simp [SetBasedAsyncPopPool.reqN, SetBasedAsyncPopPool.asend, hs,
          hq] at hw
        rcases hw with hw | hw
        · subst hw; simp [hq]
        · have := ih _ w hw; simp [hq, this]

theorem SetBasedAsyncPopPool.nodup_reqN_asyncSetPool {H : Type} [DecidableEq H] :
    ∀ (n : Nat) (q : SetBasedAsyncPopPool H), q.avail.Nodup →
      (q.reqN n).Nodup := by
  intro n
  induction n with
  | zero => intro q _; simp [SetBasedAsyncPopPool.reqN]
  | succ n ih =>
    intro q hnd
    by_cases hs : q.stopped
    · simp [SetBasedAsyncPopPool.reqN, SetBasedAsyncPopPool.asend, hs]
    · cases hq : q.avail with
      | nil =>
        simp [SetBasedAsyncPopPool.reqN, SetBasedAsyncPopPool.asend, hs, hq]
      | cons x rest =>
        have hnd' : (x :: rest).Nodup := hq ▸ hnd
        simp [SetBasedAsyncPopPool.reqN, SetBasedAsyncPopPool.asend, hs, hq]
        refine ⟨?_, ih _ hnd'.of_cons⟩
        intro hx
        exact (List.nodup_cons.mp hnd').1
          (SetBasedAsyncPopPool.mem_reqN_asyncSetPool n _ x hx)

/-- The values the upstream source hands to the first `n` requests of a
fresh wrapping pool: the first `n` upstream events, cut off at the first
failure event. -/
def upTake {T : Type} : List (Option T) → Nat → List T
  | _, 0 => []
  | [], _ + 1 => []
  | Option.none :: _, _ + 1 => []
  | some a :: rest, n + 1 => a :: upTake rest n

theorem AsyncIteratorPool.reqN_eq_upTake {T : Type} [DecidableEq T] :
    ∀ (n : Nat) (p : AsyncIteratorPool T), p.rl = [] → p.stopped = false →
      p.reqN n = upTake p.base n := by
  intro n
  induction n with
  | zero => intro p _ _; simp [AsyncIteratorPool.reqN, upTake]
  | succ n ih =>
    intro p hrl hs
    cases hb : p.base with
    | nil =>
      simp [AsyncIteratorPool.reqN, AsyncIteratorPool.asend, hs, hrl, hb,
        upTake]
    | cons o rest =>
      cases o with
      | none =>
        simp [AsyncIteratorPool.reqN, AsyncIteratorPool.asend, hs, hrl, hb,
          upTake]
      | some a =>
        simp [AsyncIteratorPool.reqN, AsyncIteratorPool.asend, hs, hrl, hb,
          upTake]
        exact ih _ rfl rfl

theorem upTake_sublist {T : Type} :
    ∀ (base : List (Option T)) (n : Nat),
      (upTake base n).Sublist (base.filterMap id) := by
  intro base
  induction base with
  | nil => intro n; cases n <;> simp [upTake]
  | cons o rest ih =>
    intro n
    cases n with
    | zero => simp [upTake]
    | succ n =>
      cases o with
      | none => simp [upTake]
      | some a =>
        simpa [upTake] using List.Sublist.cons₂ a (ih n)

/-! ### Claim theorems -/

/-- C1: on the Counting Pool, successive requests do return `0, 1, 2` in
order, and out-of-range returns are silently discarded — but a return of
an in-range, not-yet-queued value does not enqueue it: `self._rvq.push(1)`
raises AttributeError (`collections.deque` has no method `push`), so the
claimed admission never happens.  The state after three fresh requests is
`{top := 3, rvq := [], stopped := false}`, and `send(1)` on it raises. -/
theorem C1_counting_pool_return_raises :
    SimpleIntPool.mkFresh.reqN 3 = [0, 1, 2] ∧
    ((((SimpleIntPool.mkFresh.send PyVal.noneV).2.send
          PyVal.noneV).2.send PyVal.noneV).2
      = { top := 3, rvq := [], stopped := false }) ∧
    SimpleIntPool.send { top := 3, rvq := [], stopped := false } (PyVal.int 1)
      = (.error .attributeError, { top := 3, rvq := [], stopped := false }) ∧
    SimpleIntPool.send { top := 3, rvq := [], stopped := false } (PyVal.int 5)
      = (.ok Option.none, { top := 3, rvq := [], stopped := false }) ∧
    SimpleIntPool.send { top := 3, rvq := [], stopped := false }
        (PyVal.int (-1))
      = (.ok Option.none, { top := 3, rvq := [], stopped := false }) := by
  decide

/-- C2: `populate`/`apopulate` do not insert the extra arguments as
individual elements: `argset = {args}` is a singleton holding the `args`
tuple, so `apopulate(1, 2, 3)` on an empty pool produces the two-element
set `{(2, 3), 1}` (neither `2` nor `3` is inserted) and signals `2`
waiters, not `3`.  A duplicate `apopulate(1)` adds nothing but still
signals `1` waiter, not `0`.  The synchronous `populate` mutates the set
the same way and then raises AttributeError while signalling nobody. -/
theorem C2_populate_inserts_args_tuple :
    SetBasedAsyncPopPool.apopulate
        ({ avail := [], stopped := false } : SetBasedAsyncPopPool Int) 1 [2, 3]
      = (.ok (), { avail := [Elem.tup [2, 3], Elem.val 1], stopped := false },
         2) ∧
    Elem.val (2 : Int) ∉ [Elem.tup [2, 3], Elem.val (1 : Int)] ∧
    Elem.val (3 : Int) ∉ [Elem.tup [2, 3], Elem.val (1 : Int)] ∧
    SetBasedAsyncPopPool.apopulate
        ({ avail := [Elem.val 1], stopped := false } :
          SetBasedAsyncPopPool Int) 1 []
      = (.ok (), { avail := [Elem.val 1], stopped := false }, 1) ∧
    SetBasedPopulationPool.populate
        ({ avail := [], stopped := false } : SetBasedPopulationPool Int)
        1 [2, 3]
      = (.error .attributeError,
         { avail := [Elem.val 1, Elem.tup [2, 3]], stopped := false }, 0) := by
  decide

/-- C3 counterexample: the Wrapping Iterator Pool over an upstream that
yields `5` twice hands out `5` twice across two requests with no
intervening returns, so the values are not pairwise distinct. -/
theorem C3_wrapping_pool_duplicate :
    (AsyncIteratorPool.mkPool
        ([some 5, some 5] : List (Option Int))).reqN 2 = [5, 5] ∧
    ¬ ((AsyncIteratorPool.mkPool
        ([some 5, some 5] : List (Option Int))).reqN 2).Nodup := by
  decide

/-- C3 (amended): for every sequence of requests with no intervening
returns, the values handed out are pairwise distinct — unconditionally
for the Counting Pool (from any state satisfying its queue invariant)
and for both set-backed pools (from any state whose backing set is
duplicate-free, as Python set semantics guarantee), and for the Wrapping
Iterator Pool from a fresh pool provided the upstream source yields
pairwise-distinct values. -/
theorem C3_requests_pairwise_distinct :
    (∀ (p : SimpleIntPool) (n : Nat), p.Inv → (p.reqN n).Nodup) ∧
    (∀ (H : Type) [DecidableEq H] (q : SetBasedPopulationPool H) (n : Nat),
        q.avail.Nodup → (q.reqN n).Nodup) ∧
    (∀ (H : Type) [DecidableEq H] (q : SetBasedAsyncPopPool H) (n : Nat),
        q.avail.Nodup → (q.reqN n).Nodup) ∧
    (∀ (T : Type) [DecidableEq T] (base : List (Option T)) (n : Nat),
        (base.filterMap id).Nodup →
        ((AsyncIteratorPool.mkPool base).reqN n).Nodup) := by
  refine ⟨fun p n h => SimpleIntPool.nodup_reqN_counting n p h,
          fun H _ q n h => SetBasedPopulationPool.nodup_reqN_setPool n q h,
          fun H _ q n h => SetBasedAsyncPopPool.nodup_reqN_asyncSetPool n q h,
          fun T _ base n h => ?_⟩
  rw [AsyncIteratorPool.reqN_eq_upTake n _ rfl rfl]
  exact List.Nodup.sublist (upTake_sublist base n) h

/-- C3 witness: the amended theorem applied at concrete pools. -/
theorem C3_requests_pairwise_distinct_witness :
    (SimpleIntPool.mkFresh.reqN 4).Nodup ∧
    ((SetBasedPopulationPool.mkPool (some [1, 2]) :
        SetBasedPopulationPool Int).reqN 3).Nodup ∧
    ((SetBasedAsyncPopPool.mkPool (some [1, 2]) :
        SetBasedAsyncPopPool Int).reqN 3).Nodup ∧
    ((AsyncIteratorPool.mkPool
        ([some 1, some 2] : List (Option Int))).reqN 3).Nodup :=
  ⟨C3_requests_pairwise_distinct.1 SimpleIntPool.mkFresh 4
      ⟨by decide, by decide⟩,
   C3_requests_pairwise_distinct.2.1 Int
      (SetBasedPopulationPool.mkPool (some [1, 2])) 3 (by decide),
   C3_requests_pairwise_distinct.2.2.1 Int
      (SetBasedAsyncPopPool.mkPool (some [1, 2])) 3 (by decide),
   C3_requests_pairwise_distinct.2.2.2 Int [some 1, some 2] 3 (by decide)⟩

/-- C4: once a pool's closed flag is set, every request, return and
populate operation fails with the pool-closed condition (StopIteration
for the synchronous pools, StopAsyncIteration for the asynchronous
ones) and leaves the state untouched, and `throw`/`athrow` keep the flag
set — no operation ever clears the closed state. -/
theorem C4_closed_is_permanent :
    (∀ (p : SimpleIntPool), p.stopped = true →
      (∀ v, p.send v = (.error .stopIteration, p)) ∧
      (p.throw).2.stopped = true) ∧
    (∀ (H : Type) [DecidableEq H] (p : SetBasedPopulationPool H),
      p.stopped = true →
      (∀ v, p.send v = (.error .stopIteration, p, 0)) ∧
      (∀ val args, p.populate val args = (.error .stopIteration, p, 0)) ∧
      (p.throw).2.1.stopped = true) ∧
    (∀ (H : Type) [DecidableEq H] (p : SetBasedAsyncPopPool H),
      p.stopped = true →
      (∀ v, p.asend v = (.err .stopAsyncIteration, p, 0)) ∧
      (∀ val args,
        p.apopulate val args = (.error .stopAsyncIteration, p, 0)) ∧
      (p.athrow).2.stopped = true) ∧
    (∀ (T : Type) [DecidableEq T] (p : AsyncIteratorPool T),
      p.stopped = true →
      (∀ v, p.asend v = (.error .stopAsyncIteration, p)) ∧
      (p.athrow).2.stopped = true) := by
  refine ⟨fun p h => ⟨fun v => ?_, ?_⟩,
          fun H _ p h => ⟨fun v => ?_, fun val args => ?_, ?_⟩,
          fun H _ p h => ⟨fun v => ?_, fun val args => ?_, ?_⟩,
          fun T _ p h => ⟨fun v => ?_, ?_⟩⟩
  · simp [SimpleIntPool.send, h]
  · simp [SimpleIntPool.throw]
  · simp [SetBasedPopulationPool.send, h]
  · simp [SetBasedPopulationPool.populate, h]
  · simp [SetBasedPopulationPool.throw]
  · simp [SetBasedAsyncPopPool.asend, h]
  · simp [SetBasedAsyncPopPool.apopulate, h]
  · simp [SetBasedAsyncPopPool.athrow]
  · simp [AsyncIteratorPool.asend, h]
  · simp [AsyncIteratorPool.athrow]

/-- C4 witness: the theorem applied at concrete closed pools. -/
theorem C4_closed_is_permanent_witness :
    SimpleIntPool.send { top := 2, rvq := [0], stopped := true } PyVal.noneV
      = (.error .stopIteration, { top := 2, rvq := [0], stopped := true }) ∧
    SetBasedPopulationPool.send
        ({ avail := [Elem.val 1], stopped := true } :
          SetBasedPopulationPool Int) Option.none
      = (.error .stopIteration,
         { avail := [Elem.val 1], stopped := true }, 0) ∧
    SetBasedAsyncPopPool.apopulate
        ({ avail := [], stopped := true } : SetBasedAsyncPopPool Int) 5 [6]
      = (.error .stopAsyncIteration, { avail := [], stopped := true }, 0) ∧
    AsyncIteratorPool.asend
        ({ base := [some 1], yl := [], rl := [], stopped := true } :
          AsyncIteratorPool Int) Option.none
      = (.error .stopAsyncIteration,
         { base := [some 1], yl := [], rl := [], stopped := true }) :=
  ⟨(C4_closed_is_permanent.1 _ rfl).1 PyVal.noneV,
   (C4_closed_is_permanent.2.1 Int _ rfl).1 Option.none,
   (C4_closed_is_permanent.2.2.1 Int _ rfl).2.1 5 [6],
   (C4_closed_is_permanent.2.2.2 Int _ rfl).1 Option.none⟩

/-- C5: there is no type filter.  Sending a non-int (here a string) to
an open Counting Pool does not leave the state unchanged: the
`not isinstance(value, int)` branch treats it as a request, hands out
the watermark value `0` and advances the watermark. -/
theorem C5_wrong_type_send_performs_request :
    SimpleIntPool.mkFresh.send (PyVal.str "x")
      = (.ok (some 0), { top := 1, rvq := [], stopped := false }) ∧
    ({ top := 1, rvq := [], stopped := false } : SimpleIntPool)
      ≠ SimpleIntPool.mkFresh := by
  decide

/-- C6: constructing a set-backed pool with no initial values does give
an empty available set, but constructing it with an initial set `ivals`
gives `{ivals}` — a one-element set holding the `ivals` set object
itself, not its elements: the element `1` of `ivals = {1, 2}` is not in
the available set. -/
theorem C6_ctor_inserts_set_object :
    (SetBasedPopulationPool.mkPool (some [1, 2]) :
        SetBasedPopulationPool Int).avail = [Elem.setObj [1, 2]] ∧
    Elem.val (1 : Int) ∉ (SetBasedPopulationPool.mkPool (some [1, 2]) :
        SetBasedPopulationPool Int).avail ∧
    (SetBasedPopulationPool.mkPool Option.none :
        SetBasedPopulationPool Int).avail = [] ∧
    (SetBasedAsyncPopPool.mkPool (some [1, 2]) :
        SetBasedAsyncPopPool Int).avail = [Elem.setObj [1, 2]] ∧
    Elem.val (1 : Int) ∉ (SetBasedAsyncPopPool.mkPool (some [1, 2]) :
        SetBasedAsyncPopPool Int).avail ∧
    (SetBasedAsyncPopPool.mkPool Option.none :
        SetBasedAsyncPopPool Int).avail = [] := by
  decide

/-- C7: on a wrapping pool over an upstream yielding `[a, b, c]`, three
requests with no intervening returns observe exactly `a, b, c` in that
order; the fourth request (upstream exhausted) closes the pool and
raises StopAsyncIteration, as does every request after it; and an
upstream error is absorbed: the requester sees StopAsyncIteration (the
pool-closed condition), not the upstream error itself. -/
theorem C7_wrapping_pool_order_and_close :
    ∀ (a b c : Int),
      (AsyncIteratorPool.mkPool [some a, some b, some c]).reqN 3
        = [a, b, c] ∧
      ((((AsyncIteratorPool.mkPool [some a, some b, some c]).asend
            Option.none).2.asend Option.none).2.asend Option.none).2
        = { base := [], yl := [a, b, c], rl := [], stopped := false } ∧
      AsyncIteratorPool.asend
          { base := [], yl := [a, b, c], rl := [], stopped := false }
          Option.none
        = (.error .stopAsyncIteration,
           { base := [], yl := [a, b, c], rl := [], stopped := true }) ∧
      AsyncIteratorPool.asend
          { base := [], yl := [a, b, c], rl := [], stopped := true }
          Option.none
        = (.error .stopAsyncIteration,
           { base := [], yl := [a, b, c], rl := [], stopped := true }) ∧
      AsyncIteratorPool.asend
          (AsyncIteratorPool.mkPool ([Option.none] : List (Option Int)))
          Option.none
        = (.error .stopAsyncIteration,
           { base := [], yl := [], rl := [], stopped := true }) := by
  intro a b c
  exact ⟨rfl, rfl, rfl, rfl, rfl⟩

/-- C8: returning a fresh value `v` to the Set-Backed Population Pool
does insert it, but then `with self._con as c: c.notify()` binds `c` to
the boolean `True`, so the signalling raises AttributeError instead of
waking one requester; returning a value already present is a silent
no-op returning `None`, as claimed. -/
theorem C8_return_inserts_then_raises :
    SetBasedPopulationPool.send
        ({ avail := [], stopped := false } : SetBasedPopulationPool Int)
        (some (Elem.val 1))
      = (.error .attributeError,
         { avail := [Elem.val 1], stopped := false }, 0) ∧
    SetBasedPopulationPool.send
        ({ avail := [Elem.val 1], stopped := false } :
          SetBasedPopulationPool Int)
        (some (Elem.val 1))
      = (.ok Option.none, { avail := [Elem.val 1], stopped := false }, 0) :=
  by decide

/-- C9: requesters can never be woken by a close, because they never get
to wait.  On the synchronous pool a request on an empty open pool raises
AttributeError at once (`c.wait()` where `c` is the boolean returned by
`Condition.__enter__`), and `throw` itself raises AttributeError before
signalling anyone; on the asynchronous pool the un-awaited
`self._ac.wait()` makes the requester spin forever. -/
theorem C9_waiters_crash_or_spin :
    SetBasedPopulationPool.send
        ({ avail := [], stopped := false } : SetBasedPopulationPool Int)
        Option.none
      = (.error .attributeError, { avail := [], stopped := false }, 0) ∧
    SetBasedPopulationPool.throw
        ({ avail := [], stopped := false } : SetBasedPopulationPool Int)
      = (.error .attributeError, { avail := [], stopped := true }, 0) ∧
    SetBasedAsyncPopPool.asend
        ({ avail := [], stopped := false } : SetBasedAsyncPopPool Int)
        Option.none
      = (AResult.hang, { avail := [], stopped := false }, 0) := by
  decide

/-- C10: an accepted return does not yield `None` on the synchronous
pools: the Counting Pool's admission raises AttributeError
(`deque.push`), and the Set-Backed Population Pool's raises
AttributeError on `c.notify()`; only the asynchronous pools return
`None` as the module docstring promises. -/
theorem C10_accepted_return_raises :
    SimpleIntPool.send { top := 1, rvq := [], stopped := false }
        (PyVal.int 0)
      = (.error .attributeError, { top := 1, rvq := [], stopped := false }) ∧
    (SetBasedPopulationPool.send
        ({ avail := [], stopped := false } : SetBasedPopulationPool Int)
        (some (Elem.val 7))).1 = .error .attributeError ∧
    (SetBasedAsyncPopPool.asend
        ({ avail := [], stopped := false } : SetBasedAsyncPopPool Int)
        (some (Elem.val 7))).1 = AResult.ok Option.none ∧
    (AsyncIteratorPool.asend
        ({ base := [], yl := [5], rl := [], stopped := false } :
          AsyncIteratorPool Int) (some 5)).1 = .ok Option.none := by
  decide

end Pools
